import Mathlib

/-!
Verification of the static IAM runtime server (`internal/server/server.go`).

The Go source defines a policy-backed credential verifier and access
checker.  We embed the data model and the decision functions shallowly:

* `policyToken`, `policyResource`, `policySubject`, `policy` mirror the
  policy document types; their field shapes are reconstructed from the
  field accesses in `server.go` (`sub.ID`, `sub.Tokens`, `tok.EnvVar`,
  `sub.Resources`, `candidate.ID`, `candidate.Actions`) and the document
  shape given in the specification.
* `checkAccess` embeds the free function `checkAccess`.
* `newFromPolicy` embeds the table-building constructor `newFromPolicy`;
  the secret resolver (`os.Getenv` in Go) is passed as a function.
* `AuthenticateSubject` and `CheckAccess` embed the two RPC handlers,
  with gRPC status errors modelled by the `rpcError` type.

The Go map `tokens map[string]policySubject` is embedded as an
association list with unique keys; `lookupTokenTable` embeds map lookup
and insertion is an append (insertion only happens after a negative
membership check, so keys stay unique and lookup order is irrelevant).
-/

/-- Modelled from the spec: a Credential Source, a reference to an
environment variable holding the secret (document shape
`tokens: [ envVar: NAME ]`); the struct itself is in a source file not
present, but its only field `EnvVar` is visible in `server.go`. -/
structure policyToken where
  EnvVar : String
deriving DecidableEq, Repr

/-- Modelled from the spec: a Policy Resource with a resource identifier
and allowed action names; fields `ID` and `Actions` are visible in
`server.go`. -/
structure policyResource where
  ID : String
  Actions : List String
deriving DecidableEq, Repr

/-- Modelled from the spec: a Policy Subject with a stable identifier, an
ordered sequence of credential sources and its resource grants; fields
`ID`, `Tokens`, `Resources` are visible in `server.go`. -/
structure policySubject where
  ID : String
  Tokens : List policyToken
  Resources : List policyResource
deriving DecidableEq, Repr

/-- Modelled from the spec: the policy document, an ordered sequence of
subjects; the field `Subjects` is visible in `server.go`. -/
structure policy where
  Subjects : List policySubject
deriving DecidableEq, Repr

/-- Embeds the first loop of Go `checkAccess` (server.go:21-26): scan
`Resources`, remembering the candidate whose `ID` equals `resourceID`.
The Go loop has no `break`, so a later match overwrites an earlier one:
the accumulator starts at `none` (Go `found = false`) and is replaced on
every match. -/
def findResource (resources : List policyResource) (resourceID : String) :
    Option policyResource :=
  resources.foldl
    (fun acc candidate => if candidate.ID == resourceID then some candidate else acc)
    none

/-- Embeds Go `checkAccess` (server.go:15-39): find the matching resource
(last match wins, see `findResource`), deny if none; otherwise scan its
`Actions` for an exact string match. -/
def checkAccess (sub : policySubject) (action resourceID : String) : Bool :=
  match findResource sub.Resources resourceID with
  | none => false
  | some resource => resource.Actions.any (fun candidate => candidate == action)

/-- A subject declaring the resource identifier "db1" twice: the first
entry allows only "read", the second (last) entry allows only "write". -/
def dupResourceSubject : policySubject :=
  { ID := "svc-dup"
    Tokens := []
    Resources :=
      [{ ID := "db1", Actions := ["read"] },
       { ID := "db1", Actions := ["write"] }] }

/-- Follows the amended C2 wording: the decision uses the LAST entry of
the subject's resource set whose identifier matches (last match wins);
membership of the action in that entry's action set decides the result. -/
def checkAccessLastMatchSpec (sub : policySubject) (action resourceID : String) :
    Bool :=
  match sub.Resources.reverse.find? (fun c => c.ID == resourceID) with
  | none => false
  | some r => decide (action ∈ r.Actions)

/-- Build-time configuration errors of `newFromPolicy`: the Go code wraps
`ErrMissingValue` or `ErrDuplicateValue` together with the subject ID and
the environment-variable name of the offending credential source
(server.go:81,86: the error text is subjectID, envVar and the sentinel). -/
inductive buildError where
  | missingValue (subjectID envVar : String)
  | duplicateValue (subjectID envVar : String)
deriving DecidableEq, Repr

/-- Embeds lookup in the Go map `tokens map[string]policySubject`.  The
map is modelled as an association list; keys are unique by construction
(insertion happens only after a negative membership check), so scanning
from the front agrees with map lookup. -/
def lookupTokenTable (tokens : List (String × policySubject)) (credential : String) :
    Option policySubject :=
  match tokens with
  | [] => none
  | (k, v) :: rest => if k == credential then some v else lookupTokenTable rest credential

/-- Embeds the inner loop of Go `newFromPolicy` (server.go:78-91) for one
subject: resolve each credential source in order; an empty resolution
aborts with `missingValue`, a value already present in the table aborts
with `duplicateValue`, otherwise the pair is inserted. The resolver stands
for `os.Getenv`. -/
def addSubjectTokens (resolve : String → String) (sub : policySubject)
    (tokens : List (String × policySubject)) :
    List policyToken → Except buildError (List (String × policySubject))
  | [] => .ok tokens
  | tok :: rest =>
    let tokValue := resolve tok.EnvVar
    if tokValue = "" then
      .error (.missingValue sub.ID tok.EnvVar)
    else
      match lookupTokenTable tokens tokValue with
      | some _ => .error (.duplicateValue sub.ID tok.EnvVar)
      | none => addSubjectTokens resolve sub (tokens ++ [(tokValue, sub)]) rest

/-- Embeds the outer loop of Go `newFromPolicy` (server.go:77-92):
process subjects in document order, threading the token table. -/
def buildSubjects (resolve : String → String)
    (tokens : List (String × policySubject)) :
    List policySubject → Except buildError (List (String × policySubject))
  | [] => .ok tokens
  | sub :: rest =>
    match addSubjectTokens resolve sub tokens sub.Tokens with
    | .error e => .error e
    | .ok tokens2 => buildSubjects resolve tokens2 rest

/-- Embeds Go `newFromPolicy` (server.go:74-100): build the credential
table from an empty map; on success the server holds exactly this table
(the logger is irrelevant to the decisions and omitted). -/
def newFromPolicy (resolve : String → String) (c : policy) :
    Except buildError (List (String × policySubject)) :=
  buildSubjects resolve [] c.Subjects

/-- Request-time errors of the two RPC handlers: gRPC `Unauthenticated`
(server.go:107,124) and `PermissionDenied` carrying the offending action
and resource identifier (server.go:129). -/
inductive rpcError where
  | unauthenticated (msg : String)
  | permissionDenied (action resourceId : String)
deriving DecidableEq, Repr

/-- Embeds the RPC handler `AuthenticateSubject` (server.go:102-117):
look the credential up in the token table; a miss is `unauthenticated`,
a hit returns the claim map with the single key "sub" bound to the
subject's identifier. -/
def AuthenticateSubject (tokens : List (String × policySubject))
    (credential : String) : Except rpcError (List (String × String)) :=
  match lookupTokenTable tokens credential with
  | none => .error (.unauthenticated "invalid credential")
  | some sub => .ok [("sub", sub.ID)]

/-- One entry of a `CheckAccessRequest`: an action name and a resource
identifier (fields `Action` and `ResourceId` used in server.go:128-129). -/
structure accessRequestAction where
  Action : String
  ResourceId : String
deriving DecidableEq, Repr

/-- Embeds the loop of Go `CheckAccess` (server.go:127-131): evaluate the
pairs in order; the first failing pair aborts with `permissionDenied`
naming that pair. -/
def checkActions (sub : policySubject) :
    List accessRequestAction → Except rpcError Unit
  | [] => .ok ()
  | a :: rest =>
    if checkAccess sub a.Action a.ResourceId then checkActions sub rest
    else .error (.permissionDenied a.Action a.ResourceId)

/-- Embeds the RPC handler `CheckAccess` (server.go:119-134): resolve the
credential (miss is `unauthenticated`), then require every requested
(action, resource) pair to pass `checkAccess`. -/
def CheckAccess (tokens : List (String × policySubject)) (credential : String)
    (actions : List accessRequestAction) : Except rpcError Unit :=
  match lookupTokenTable tokens credential with
  | none => .error (.unauthenticated "invalid credential")
  | some sub => checkActions sub actions

/-- The example subject of the spec's end-to-end test: id "svc-a", one
token source TOKEN_A, one resource "db1" allowing only "read". -/
def svcASubject : policySubject :=
  { ID := "svc-a"
    Tokens := [{ EnvVar := "TOKEN_A" }]
    Resources := [{ ID := "db1", Actions := ["read"] }] }

/-- The credential sources of a document flattened in processing order:
subjects in document order, then each subject's tokens in order, each
paired with its owning subject. -/
def subjectTokenPairs : List policySubject → List (policySubject × policyToken)
  | [] => []
  | sub :: rest => sub.Tokens.map (fun tok => (sub, tok)) ++ subjectTokenPairs rest

/-- The build loop of `newFromPolicy` re-expressed over the flattened
(subject, token) sequence; `buildSubjects_eq_runPairs` shows it computes
the same table. -/
def runPairs (resolve : String → String)
    (tokens : List (String × policySubject)) :
    List (policySubject × policyToken) →
      Except buildError (List (String × policySubject))
  | [] => .ok tokens
  | (sub, tok) :: rest =>
    if resolve tok.EnvVar = "" then
      .error (.missingValue sub.ID tok.EnvVar)
    else
      match lookupTokenTable tokens (resolve tok.EnvVar) with
      | some _ => .error (.duplicateValue sub.ID tok.EnvVar)
      | none => runPairs resolve (tokens ++ [(resolve tok.EnvVar, sub)]) rest

/-- C6 counterexample: in `policyC6refut` under `resolveC6refut` the
source "C" of subject "svc-b" resolves to the empty string, yet the build
fails with a DUPLICATE-value error for the earlier source "B" (whose
value collides with "A"), not with a missing-value error for "C". -/
def resolveC6refut : String → String :=
  fun v => if v = "A" then "x" else if v = "B" then "x" else ""

/-- The document of the C6/C7 counterexamples: subject "svc-a" with
source "A", subject "svc-b" with sources "B" then "C". -/
def policyC6refut : policy :=
  { Subjects :=
      [{ ID := "svc-a", Tokens := [{ EnvVar := "A" }], Resources := [] },
       { ID := "svc-b", Tokens := [{ EnvVar := "B" }, { EnvVar := "C" }],
         Resources := [] }] }

/-- Resolver for the C7 counterexample: sources "A" and "C" both resolve
to the non-empty value "x", while "B" is unset (resolves empty). -/
def resolveC7refut : String → String :=
  fun v => if v = "A" then "x" else if v = "C" then "x" else ""

/-- The overwrite-fold keeps the last match: folding from `acc` equals the
first match of the reversed list, defaulting to `acc`. -/
theorem foldl_overwrite_eq_reverse_find (p : policyResource → Bool) :
    ∀ (l : List policyResource) (acc : Option policyResource),
      l.foldl (fun a c => if p c then some c else a) acc =
        match l.reverse.find? p with
        | some x => some x
        | none => acc := by
  intro l
  induction l with
  | nil => intro acc; simp
  | cons c rest ih =>
    intro acc
    simp only [List.foldl_cons, List.reverse_cons, List.find?_append]
    rw [ih]
    cases h : rest.reverse.find? p with
    | some x => simp [h, Option.orElse]
    | none =>
      simp only [h, Option.none_orElse]
      by_cases hc : p c <;> simp [List.find?, hc]

/-- Restatement of `findResource` as a search through the reversed list. -/
theorem findResource_eq_reverse_find (resources : List policyResource)
    (resourceID : String) :
    findResource resources resourceID =
      resources.reverse.find? (fun c => c.ID == resourceID) := by
  unfold findResource
  rw [foldl_overwrite_eq_reverse_find (fun c => c.ID == resourceID) resources none]
  cases h : resources.reverse.find? (fun c => c.ID == resourceID) <;> simp [h]

/-- C1: for every subject whose declared resource identifiers are pairwise
distinct, every resource in its resource set, and every action string,
`checkAccess` returns `true` iff the action is exactly one of that
resource's allowed actions. -/
theorem checkAccess_action_mem_iff (sub : policySubject) (r : policyResource)
    (a : String)
    (hnodup : (sub.Resources.map policyResource.ID).Nodup)
    (hr : r ∈ sub.Resources) :
    checkAccess sub a r.ID = true ↔ a ∈ r.Actions := by
  have hfind : findResource sub.Resources r.ID = some r := by
    rw [findResource_eq_reverse_find]
    have hmem : r ∈ sub.Resources.reverse := by simpa using hr
    have hsome : (sub.Resources.reverse.find? (fun c => c.ID == r.ID)).isSome := by
      rw [List.find?_isSome]
      exact ⟨r, hmem, by simp⟩
    obtain ⟨x, hx⟩ := Option.isSome_iff_exists.mp hsome
    have hpx := List.find?_some hx
    have hxmem : x ∈ sub.Resources := by
      have := List.mem_of_find?_eq_some hx
      simpa using this
    have hxr : x = r :=
      List.inj_on_of_nodup_map hnodup hxmem hr (by simpa using hpx)
    rw [hx, hxr]
  unfold checkAccess
  rw [hfind]
  simp [List.any_eq_true]

/-- Witness for C1 at a concrete subject and resource. -/
theorem checkAccess_action_mem_iff_witness :
    checkAccess
      { ID := "svc-a", Tokens := [],
        Resources := [{ ID := "db1", Actions := ["read"] }] }
      "read" "db1" = true :=
  (checkAccess_action_mem_iff
    { ID := "svc-a", Tokens := [],
      Resources := [{ ID := "db1", Actions := ["read"] }] }
    { ID := "db1", Actions := ["read"] } "read"
    (by decide) (by decide)).mpr (by decide)

/-- C3: an action is denied for a resource identifier that is not the
identifier of any entry in the subject's resource set. -/
theorem checkAccess_unknown_resource (sub : policySubject) (a rid : String)
    (h : rid ∉ sub.Resources.map policyResource.ID) :
    checkAccess sub a rid = false := by
  have hfind : findResource sub.Resources rid = none := by
    rw [findResource_eq_reverse_find, List.find?_eq_none]
    intro x hx
    simp only [beq_iff_eq]
    intro hxid
    exact h (List.mem_map.mpr ⟨x, by simpa using hx, hxid⟩)
  unfold checkAccess
  rw [hfind]

/-- Witness for C3 at a concrete subject. -/
theorem checkAccess_unknown_resource_witness :
    checkAccess
      { ID := "svc-a", Tokens := [],
        Resources := [{ ID := "db1", Actions := ["read"] }] }
      "read" "db2" = false :=
  checkAccess_unknown_resource
    { ID := "svc-a", Tokens := [],
      Resources := [{ ID := "db1", Actions := ["read"] }] }
    "read" "db2" (by decide)

/-- C2 counterexample: for `dupResourceSubject` the FIRST entry matching
"db1" allows "read" but `checkAccess` denies "read" and allows "write",
so the decision is taken from the LAST matching entry, not the first:
the Go scan loop (server.go:21-26) has no `break`. -/
theorem checkAccess_first_match_refuted :
    dupResourceSubject.Resources.find? (fun c => c.ID == "db1") =
        some { ID := "db1", Actions := ["read"] } ∧
    checkAccess dupResourceSubject "read" "db1" = false ∧
    checkAccess dupResourceSubject "write" "db1" = true := by
  refine ⟨by decide, by decide, by decide⟩

/-- C2 (amended): when duplicate resource identifiers occur, `checkAccess`
evaluates the allowed-action set of the LAST entry whose identifier
matches — stated for all inputs as equality with the last-match
specification. -/
theorem checkAccess_eq_last_match (sub : policySubject)
    (action resourceID : String) :
    checkAccess sub action resourceID =
      checkAccessLastMatchSpec sub action resourceID := by
  unfold checkAccess checkAccessLastMatchSpec
  rw [findResource_eq_reverse_find]
  cases h : sub.Resources.reverse.find? (fun c => c.ID == resourceID) with
  | none => rfl
  | some r =>
    refine Bool.eq_iff_iff.mpr ?_
    simp [List.any_eq_true]

/-- C4: authentication against a credential table fails with the
unauthenticated error exactly on the credentials that are not keys of the
table, and succeeds with the owning subject's identity on the keys; the
handler is a pure function of the table, so no state changes. -/
theorem AuthenticateSubject_hit_miss (T : List (String × policySubject))
    (c : String) :
    (lookupTokenTable T c = none →
      AuthenticateSubject T c = .error (.unauthenticated "invalid credential")) ∧
    (∀ sub, lookupTokenTable T c = some sub →
      AuthenticateSubject T c = .ok [("sub", sub.ID)]) := by
  constructor
  · intro h
    unfold AuthenticateSubject
    rw [h]
  · intro sub h
    unfold AuthenticateSubject
    rw [h]

/-- Witness for C4: a miss and a hit on a concrete one-entry table. -/
theorem AuthenticateSubject_hit_miss_witness :
    AuthenticateSubject [("abc123", svcASubject)] "wrong" =
        .error (.unauthenticated "invalid credential") ∧
    AuthenticateSubject [("abc123", svcASubject)] "abc123" =
        .ok [("sub", "svc-a")] :=
  ⟨(AuthenticateSubject_hit_miss [("abc123", svcASubject)] "wrong").1 (by decide),
   (AuthenticateSubject_hit_miss [("abc123", svcASubject)] "abc123").2
     svcASubject (by decide)⟩

/-- C5 counterexample: on a hit the handler returns the claim map with
key "sub" (server.go:112), not "subject" as the claim states: looking up
"subject" in the returned claim map yields nothing. -/
theorem authenticate_subject_key_refuted :
    AuthenticateSubject [("abc123", svcASubject)] "abc123" =
        .ok [("sub", "svc-a")] ∧
    ([("sub", "svc-a")] : List (String × String)).lookup "subject" = none := by
  exact ⟨rfl, rfl⟩

/-- C5 (amended): for every table and credential present in it, the
handler returns the claim map binding the key "sub" to the owning
subject's identifier. -/
theorem AuthenticateSubject_sub_claim (T : List (String × policySubject))
    (c : String) (sub : policySubject)
    (h : lookupTokenTable T c = some sub) :
    AuthenticateSubject T c = .ok [("sub", sub.ID)] := by
  unfold AuthenticateSubject
  rw [h]

/-- Witness for amended C5 on a concrete table. -/
theorem AuthenticateSubject_sub_claim_witness :
    AuthenticateSubject [("abc123", svcASubject)] "abc123" =
        .ok [("sub", "svc-a")] :=
  AuthenticateSubject_sub_claim [("abc123", svcASubject)] "abc123"
    svcASubject (by decide)

/-- The per-batch loop succeeds exactly when every pair passes. -/
theorem checkActions_ok_iff (sub : policySubject)
    (actions : List accessRequestAction) :
    checkActions sub actions = .ok () ↔
      ∀ x ∈ actions, checkAccess sub x.Action x.ResourceId = true := by
  induction actions with
  | nil => simp [checkActions]
  | cons a rest ih =>
    cases h : checkAccess sub a.Action a.ResourceId with
    | true => simp [checkActions, h, ih, List.forall_mem_cons]
    | false => simp [checkActions, h, List.forall_mem_cons]

/-- The per-batch loop reports the first failing pair: if all pairs before
`a` pass and `a` fails, the loop stops at `a` whatever comes after. -/
theorem checkActions_first_fail (sub : policySubject) :
    ∀ (pre : List accessRequestAction) (a : accessRequestAction)
      (post : List accessRequestAction),
      (∀ y ∈ pre, checkAccess sub y.Action y.ResourceId = true) →
      checkAccess sub a.Action a.ResourceId = false →
      checkActions sub (pre ++ a :: post) =
        .error (.permissionDenied a.Action a.ResourceId) := by
  intro pre
  induction pre with
  | nil =>
    intro a post _ hfail
    simp [checkActions, hfail]
  | cons b pre ih =>
    intro a post hpre hfail
    have hb : checkAccess sub b.Action b.ResourceId = true := hpre b (by simp)
    simp only [List.cons_append]
    simp [checkActions, hb]
    exact ih a post (fun y hy => hpre y (by simp [hy])) hfail

/-- C8: with a valid credential, a batch request succeeds iff every
(action, resource) pair passes `checkAccess`; otherwise it fails with
`permissionDenied` naming the FIRST failing pair, and the result is the
same as if the pairs after the first failing one were absent (they are
never evaluated). -/
theorem CheckAccess_batch (T : List (String × policySubject)) (c : String)
    (sub : policySubject) (actions : List accessRequestAction)
    (hauth : lookupTokenTable T c = some sub) :
    (CheckAccess T c actions = .ok () ↔
      ∀ x ∈ actions, checkAccess sub x.Action x.ResourceId = true) ∧
    (∀ pre a post, actions = pre ++ a :: post →
      (∀ y ∈ pre, checkAccess sub y.Action y.ResourceId = true) →
      checkAccess sub a.Action a.ResourceId = false →
      CheckAccess T c actions =
          .error (.permissionDenied a.Action a.ResourceId) ∧
        CheckAccess T c actions = CheckAccess T c (pre ++ [a])) := by
  have hCA : ∀ acts, CheckAccess T c acts = checkActions sub acts := by
    intro acts
    unfold CheckAccess
    rw [hauth]
  constructor
  · rw [hCA]
    exact checkActions_ok_iff sub actions
  · intro pre a post heq hpre hfail
    have h1 : CheckAccess T c actions =
        .error (.permissionDenied a.Action a.ResourceId) := by
      rw [hCA, heq]
      exact checkActions_first_fail sub pre a post hpre hfail
    refine ⟨h1, ?_⟩
    have h2 : CheckAccess T c (pre ++ [a]) =
        .error (.permissionDenied a.Action a.ResourceId) := by
      rw [hCA]
      exact checkActions_first_fail sub pre a [] hpre hfail
    rw [h1, h2]

/-- Witness for C8: the middle pair of three is the first failure and is
the one reported. -/
theorem CheckAccess_batch_witness :
    CheckAccess [("abc123", svcASubject)] "abc123"
        [⟨"read", "db1"⟩, ⟨"write", "db1"⟩, ⟨"read", "db1"⟩] =
      .error (.permissionDenied "write" "db1") :=
  ((CheckAccess_batch [("abc123", svcASubject)] "abc123" svcASubject
      [⟨"read", "db1"⟩, ⟨"write", "db1"⟩, ⟨"read", "db1"⟩] (by decide)).2
    [⟨"read", "db1"⟩] ⟨"write", "db1"⟩ [⟨"read", "db1"⟩] rfl
    (by decide) (by decide)).1

/-- C9: a batch request with a valid credential and no (action, resource)
pairs succeeds, whatever the subject's grants. -/
theorem CheckAccess_empty_actions (T : List (String × policySubject))
    (c : String) (sub : policySubject)
    (h : lookupTokenTable T c = some sub) :
    CheckAccess T c [] = .ok () := by
  unfold CheckAccess
  rw [h]
  rfl

/-- Witness for C9 on a concrete table. -/
theorem CheckAccess_empty_actions_witness :
    CheckAccess [("abc123", svcASubject)] "abc123" [] = .ok () :=
  CheckAccess_empty_actions [("abc123", svcASubject)] "abc123"
    svcASubject (by decide)

/-- The inner build loop is `runPairs` on the subject's tokens paired with
that subject. -/
theorem addSubjectTokens_eq_runPairs (resolve : String → String)
    (sub : policySubject) :
    ∀ (toks : List policyToken) (T : List (String × policySubject)),
      addSubjectTokens resolve sub T toks =
        runPairs resolve T (toks.map (fun tok => (sub, tok))) := by
  intro toks
  induction toks with
  | nil => intro T; rfl
  | cons tok rest ih =>
    intro T
    simp only [List.map_cons]
    unfold addSubjectTokens runPairs
    by_cases h : resolve tok.EnvVar = ""
    · simp [h]
    · simp only [h, if_false, ite_false]
      cases hl : lookupTokenTable T (resolve tok.EnvVar) with
      | some s => simp [h, hl]
      | none => simp [h, hl, ih]

/-- Step lemma: an empty resolution aborts the pair loop. -/
theorem runPairs_cons_missing (resolve : String → String)
    (T : List (String × policySubject)) (sub : policySubject)
    (tok : policyToken) (rest : List (policySubject × policyToken))
    (h : resolve tok.EnvVar = "") :
    runPairs resolve T ((sub, tok) :: rest) =
      .error (.missingValue sub.ID tok.EnvVar) := by
  simp [runPairs, h]

/-- Step lemma: a value already in the table aborts the pair loop. -/
theorem runPairs_cons_dup (resolve : String → String)
    (T : List (String × policySubject)) (sub : policySubject)
    (tok : policyToken) (rest : List (policySubject × policyToken))
    (s : policySubject) (h : resolve tok.EnvVar ≠ "")
    (hl : lookupTokenTable T (resolve tok.EnvVar) = some s) :
    runPairs resolve T ((sub, tok) :: rest) =
      .error (.duplicateValue sub.ID tok.EnvVar) := by
  simp [runPairs, h, hl]

/-- Step lemma: a fresh non-empty value is inserted and the loop goes on. -/
theorem runPairs_cons_ok (resolve : String → String)
    (T : List (String × policySubject)) (sub : policySubject)
    (tok : policyToken) (rest : List (policySubject × policyToken))
    (h : resolve tok.EnvVar ≠ "")
    (hl : lookupTokenTable T (resolve tok.EnvVar) = none) :
    runPairs resolve T ((sub, tok) :: rest) =
      runPairs resolve (T ++ [(resolve tok.EnvVar, sub)]) rest := by
  simp [runPairs, h, hl]

/-- Running the pair loop over a concatenation threads the table through
the first part. -/
theorem runPairs_append (resolve : String → String) :
    ∀ (l₁ : List (policySubject × policyToken))
      (T : List (String × policySubject))
      (l₂ : List (policySubject × policyToken)),
      runPairs resolve T (l₁ ++ l₂) =
        match runPairs resolve T l₁ with
        | .ok T2 => runPairs resolve T2 l₂
        | .error e => .error e := by
  intro l₁
  induction l₁ with
  | nil => intro T l₂; rfl
  | cons q l₁ ih =>
    intro T l₂
    obtain ⟨sub, tok⟩ := q
    rw [List.cons_append]
    by_cases h : resolve tok.EnvVar = ""
    · rw [runPairs_cons_missing resolve T sub tok (l₁ ++ l₂) h,
          runPairs_cons_missing resolve T sub tok l₁ h]
    · cases hl : lookupTokenTable T (resolve tok.EnvVar) with
      | some s =>
        rw [runPairs_cons_dup resolve T sub tok (l₁ ++ l₂) s h hl,
            runPairs_cons_dup resolve T sub tok l₁ s h hl]
      | none =>
        rw [runPairs_cons_ok resolve T sub tok (l₁ ++ l₂) h hl,
            runPairs_cons_ok resolve T sub tok l₁ h hl]
        exact ih (T ++ [(resolve tok.EnvVar, sub)]) l₂

/-- The outer build loop is `runPairs` on the flattened sequence. -/
theorem buildSubjects_eq_runPairs (resolve : String → String) :
    ∀ (subs : List policySubject) (T : List (String × policySubject)),
      buildSubjects resolve T subs =
        runPairs resolve T (subjectTokenPairs subs) := by
  intro subs
  induction subs with
  | nil => intro T; rfl
  | cons sub rest ih =>
    intro T
    unfold buildSubjects subjectTokenPairs
    rw [runPairs_append, ← addSubjectTokens_eq_runPairs]
    cases h : addSubjectTokens resolve sub T sub.Tokens with
    | error e => rfl
    | ok T2 => exact ih T2

/-- Lookup misses exactly the strings that are not keys of the table. -/
theorem lookupTokenTable_eq_none_iff (T : List (String × policySubject))
    (k : String) :
    lookupTokenTable T k = none ↔ k ∉ T.map Prod.fst := by
  induction T with
  | nil => simp [lookupTokenTable]
  | cons p rest ih =>
    obtain ⟨k2, v⟩ := p
    by_cases h : k2 = k
    · simp [lookupTokenTable, h]
    · simp [lookupTokenTable, h, ih, Ne.symm h]

/-- Lookup in a concatenated table tries the front part first. -/
theorem lookupTokenTable_append (T₁ T₂ : List (String × policySubject))
    (k : String) :
    lookupTokenTable (T₁ ++ T₂) k =
      match lookupTokenTable T₁ k with
      | some v => some v
      | none => lookupTokenTable T₂ k := by
  induction T₁ with
  | nil => rfl
  | cons p rest ih =>
    obtain ⟨k2, v⟩ := p
    by_cases h : k2 = k
    · simp [lookupTokenTable, h]
    · simp [lookupTokenTable, h, ih]

/-- Processing a front segment whose resolved values are non-empty,
pairwise distinct and absent from the table inserts exactly those pairs
and continues with the rest. -/
theorem runPairs_ok_over_front (resolve : String → String) :
    ∀ (pre : List (policySubject × policyToken))
      (T : List (String × policySubject))
      (rest : List (policySubject × policyToken)),
      (∀ p ∈ pre, resolve p.2.EnvVar ≠ "") →
      ((pre.map (fun p => resolve p.2.EnvVar)).Nodup) →
      (∀ p ∈ pre, lookupTokenTable T (resolve p.2.EnvVar) = none) →
      runPairs resolve T (pre ++ rest) =
        runPairs resolve
          (T ++ pre.map (fun p => (resolve p.2.EnvVar, p.1))) rest := by
  intro pre
  induction pre with
  | nil =>
    intro T rest _ _ _
    simp
  | cons q pre ih =>
    intro T rest hne hnodup hnone
    obtain ⟨sub, tok⟩ := q
    have hq : resolve tok.EnvVar ≠ "" := hne (sub, tok) (by simp)
    have hqn : lookupTokenTable T (resolve tok.EnvVar) = none :=
      hnone (sub, tok) (by simp)
    have hhead : resolve tok.EnvVar ∉ pre.map (fun p => resolve p.2.EnvVar) := by
      have h := hnodup
      simp only [List.map_cons, List.nodup_cons] at h
      exact h.1
    have htail : (pre.map (fun p => resolve p.2.EnvVar)).Nodup := by
      simp only [List.map_cons, List.nodup_cons] at hnodup
      exact hnodup.2
    have hnone2 : ∀ p ∈ pre,
        lookupTokenTable (T ++ [(resolve tok.EnvVar, sub)])
          (resolve p.2.EnvVar) = none := by
      intro p hp
      rw [lookupTokenTable_append, hnone p (by simp [hp])]
      have hvne : resolve tok.EnvVar ≠ resolve p.2.EnvVar := by
        intro he
        exact hhead (by rw [he]; exact List.mem_map.mpr ⟨p, hp, rfl⟩)
      simp [lookupTokenTable, hvne]
    rw [List.cons_append, runPairs_cons_ok resolve T sub tok (pre ++ rest) hq hqn,
        ih (T ++ [(resolve tok.EnvVar, sub)]) rest
          (fun p hp => hne p (by simp [hp])) htail hnone2]
    simp [List.append_assoc]

/-- C6 counterexample: an empty-resolving source exists but the build
error is `duplicateValue`, not `missingValue`. -/
theorem newFromPolicy_missing_refuted :
    resolveC6refut "C" = "" ∧
    newFromPolicy resolveC6refut policyC6refut =
        .error (.duplicateValue "svc-b" "B") ∧
    newFromPolicy resolveC6refut policyC6refut ≠
        .error (.missingValue "svc-b" "C") := by
  refine ⟨rfl, rfl, ?_⟩
  intro h
  simp [newFromPolicy, buildSubjects, addSubjectTokens, resolveC6refut,
    policyC6refut, lookupTokenTable] at h

/-- C6 (amended): if a credential source resolves to the empty string and
every source processed before it (in document order) resolves to a
non-empty value distinct from all earlier values, the build fails with
`missingValue` naming that source's subject identifier and reference. -/
theorem newFromPolicy_missing_value (resolve : String → String) (doc : policy)
    (pre : List (policySubject × policyToken)) (sub : policySubject)
    (tok : policyToken) (post : List (policySubject × policyToken))
    (hflat : subjectTokenPairs doc.Subjects = pre ++ (sub, tok) :: post)
    (hne : ∀ p ∈ pre, resolve p.2.EnvVar ≠ "")
    (hnodup : (pre.map (fun p => resolve p.2.EnvVar)).Nodup)
    (hempty : resolve tok.EnvVar = "") :
    newFromPolicy resolve doc = .error (.missingValue sub.ID tok.EnvVar) := by
  unfold newFromPolicy
  rw [buildSubjects_eq_runPairs, hflat,
      runPairs_ok_over_front resolve pre [] ((sub, tok) :: post) hne hnodup
        (fun p _ => rfl),
      runPairs_cons_missing resolve _ sub tok post hempty]

/-- Witness for amended C6: TOKEN_A resolves, TOKEN_B is unset. -/
theorem newFromPolicy_missing_value_witness :
    newFromPolicy
        (fun v => if v = "TOKEN_A" then "abc123" else "")
        { Subjects :=
            [svcASubject,
             { ID := "svc-b", Tokens := [{ EnvVar := "TOKEN_B" }],
               Resources := [] }] } =
      .error (.missingValue "svc-b" "TOKEN_B") :=
  newFromPolicy_missing_value
    (fun v => if v = "TOKEN_A" then "abc123" else "")
    { Subjects :=
        [svcASubject,
         { ID := "svc-b", Tokens := [{ EnvVar := "TOKEN_B" }],
           Resources := [] }] }
    [(svcASubject, { EnvVar := "TOKEN_A" })]
    { ID := "svc-b", Tokens := [{ EnvVar := "TOKEN_B" }], Resources := [] }
    { EnvVar := "TOKEN_B" } [] rfl (by decide) (by decide) rfl

/-- C7 counterexample: two sources ("A" of svc-a and "C" of svc-b)
resolve to the same non-empty value, yet the build fails with a
MISSING-value error for the earlier empty source "B", not with the
duplicate-value error the claim predicts. -/
theorem newFromPolicy_duplicate_refuted :
    resolveC7refut "A" = "x" ∧ resolveC7refut "C" = "x" ∧
    ("x" : String) ≠ "" ∧
    newFromPolicy resolveC7refut policyC6refut =
        .error (.missingValue "svc-b" "B") ∧
    newFromPolicy resolveC7refut policyC6refut ≠
        .error (.duplicateValue "svc-b" "C") := by
  refine ⟨rfl, rfl, by decide, rfl, fun h => ?_⟩
  rw [(rfl : newFromPolicy resolveC7refut policyC6refut =
      .error (.missingValue "svc-b" "B"))] at h
  exact buildError.noConfusion (Except.error.inj h)

/-- C7 (amended): if a credential source resolves to a non-empty value
already produced by an earlier source, and every earlier source resolved
to a non-empty, pairwise-distinct value, the build fails with
`duplicateValue` naming the later-processed source's subject identifier
and reference (the whole build aborts; no table is returned). -/
theorem newFromPolicy_duplicate_value (resolve : String → String)
    (doc : policy) (pre : List (policySubject × policyToken))
    (sub : policySubject) (tok : policyToken)
    (post : List (policySubject × policyToken))
    (hflat : subjectTokenPairs doc.Subjects = pre ++ (sub, tok) :: post)
    (hne : ∀ p ∈ pre, resolve p.2.EnvVar ≠ "")
    (hnodup : (pre.map (fun p => resolve p.2.EnvVar)).Nodup)
    (htne : resolve tok.EnvVar ≠ "")
    (hdup : resolve tok.EnvVar ∈ pre.map (fun p => resolve p.2.EnvVar)) :
    newFromPolicy resolve doc = .error (.duplicateValue sub.ID tok.EnvVar) := by
  unfold newFromPolicy
  rw [buildSubjects_eq_runPairs, hflat,
      runPairs_ok_over_front resolve pre [] ((sub, tok) :: post) hne hnodup
        (fun p _ => rfl)]
  have hkeys : ((([] : List (String × policySubject)) ++
      pre.map (fun p => (resolve p.2.EnvVar, p.1))).map Prod.fst) =
      pre.map (fun p => resolve p.2.EnvVar) := by
    simp [List.map_map, Function.comp]
  have hlookup : lookupTokenTable
      (([] : List (String × policySubject)) ++
        pre.map (fun p => (resolve p.2.EnvVar, p.1)))
      (resolve tok.EnvVar) ≠ none := by
    rw [Ne, lookupTokenTable_eq_none_iff, hkeys]
    simp [hdup]
  cases hl : lookupTokenTable
      (([] : List (String × policySubject)) ++
        pre.map (fun p => (resolve p.2.EnvVar, p.1)))
      (resolve tok.EnvVar) with
  | none => exact absurd hl hlookup
  | some s => rw [runPairs_cons_dup resolve _ sub tok post s htne hl]

/-- Witness for amended C7: two subjects whose sources resolve to the
same value; the second one is reported. -/
theorem newFromPolicy_duplicate_value_witness :
    newFromPolicy
        (fun v => if v = "A" then "x" else if v = "B" then "x" else "")
        { Subjects :=
            [{ ID := "svc-a", Tokens := [{ EnvVar := "A" }], Resources := [] },
             { ID := "svc-b", Tokens := [{ EnvVar := "B" }],
               Resources := [] }] } =
      .error (.duplicateValue "svc-b" "B") :=
  newFromPolicy_duplicate_value
    (fun v => if v = "A" then "x" else if v = "B" then "x" else "")
    { Subjects :=
        [{ ID := "svc-a", Tokens := [{ EnvVar := "A" }], Resources := [] },
         { ID := "svc-b", Tokens := [{ EnvVar := "B" }], Resources := [] }] }
    [({ ID := "svc-a", Tokens := [{ EnvVar := "A" }], Resources := [] },
      { EnvVar := "A" })]
    { ID := "svc-b", Tokens := [{ EnvVar := "B" }], Resources := [] }
    { EnvVar := "B" } [] rfl (by decide) (by decide) (by decide) (by decide)

/-- A successful pair loop only ever inserts non-empty keys. -/
theorem runPairs_ok_keys_ne (resolve : String → String) :
    ∀ (l : List (policySubject × policyToken))
      (T T2 : List (String × policySubject)),
      runPairs resolve T l = .ok T2 →
      (∀ p ∈ T, p.1 ≠ "") → ∀ p ∈ T2, p.1 ≠ "" := by
  intro l
  induction l with
  | nil =>
    intro T T2 h hT
    have hTT : T = T2 := by simpa [runPairs] using h
    rw [← hTT]
    exact hT
  | cons q l ih =>
    intro T T2 h hT
    obtain ⟨sub, tok⟩ := q
    by_cases hv : resolve tok.EnvVar = ""
    · rw [runPairs_cons_missing resolve T sub tok l hv] at h
      exact absurd h (by simp)
    · cases hl : lookupTokenTable T (resolve tok.EnvVar) with
      | some s =>
        rw [runPairs_cons_dup resolve T sub tok l s hv hl] at h
        exact absurd h (by simp)
      | none =>
        rw [runPairs_cons_ok resolve T sub tok l hv hl] at h
        refine ih (T ++ [(resolve tok.EnvVar, sub)]) T2 h ?_
        intro p hp
        rcases List.mem_append.mp hp with h1 | h2
        · exact hT p h1
        · have hpq : p = (resolve tok.EnvVar, sub) := by simpa using h2
          rw [hpq]
          exact hv

/-- C10: every table produced by a successful build has only non-empty
keys, so authenticating with the empty credential always fails with the
unauthenticated error; the table is never mutated afterwards (all
operations on it are pure functions). -/
theorem newFromPolicy_keys_ne_empty (resolve : String → String)
    (doc : policy) (T : List (String × policySubject))
    (h : newFromPolicy resolve doc = .ok T) :
    (∀ p ∈ T, p.1 ≠ "") ∧
    AuthenticateSubject T "" =
      .error (.unauthenticated "invalid credential") := by
  have hkeys : ∀ p ∈ T, p.1 ≠ "" := by
    refine runPairs_ok_keys_ne resolve (subjectTokenPairs doc.Subjects)
      [] T ?_ ?_
    · rw [← buildSubjects_eq_runPairs]
      exact h
    · intro p hp
      simp at hp
  refine ⟨hkeys, ?_⟩
  have hnone : lookupTokenTable T "" = none := by
    rw [lookupTokenTable_eq_none_iff]
    intro hmem
    obtain ⟨p, hp, hfst⟩ := List.mem_map.mp hmem
    exact hkeys p hp hfst
  unfold AuthenticateSubject
  rw [hnone]

/-- Witness for C10: the table built from the spec's example policy
rejects the empty credential. -/
theorem newFromPolicy_keys_ne_empty_witness :
    AuthenticateSubject [("abc123", svcASubject)] "" =
        .error (.unauthenticated "invalid credential") :=
  (newFromPolicy_keys_ne_empty (fun v => if v = "TOKEN_A" then "abc123" else "")
    { Subjects := [svcASubject] } [("abc123", svcASubject)] rfl).2
